import Mathlib

/-!
Verification of the Encircle end-to-end-encrypted messaging client.

The development shallowly embeds the client's crypto, key-exchange,
storage and message-handling logic:

* `src/client/src/utils/crypto.js` — `deriveSharedKey`, `encryptMessage`,
  `decryptMessage`, `encryptFile`, `decryptFile`;
* the IndexedDB storage wrapper — `storeSessionKey`, `getSessionKey`,
  `getNextSequenceNumber`, `validateSequenceNumber`;
* `src/client/src/utils/keyExchange.js` — `completeKeyExchange`;
* `src/client/src/components/Chat.js` — `handleIncomingMessage`.

Platform primitives (Web Crypto ECDH/ECDSA/AES-GCM/HKDF, JSON, IndexedDB)
are not part of the repository; they are modelled symbolically, keeping
exactly the algebraic properties the code relies on, as documented on each
definition.  All repository logic (key-id strings, falsy-default readings,
branch order, field layouts) is translated directly from the source.
-/

namespace Encircle

/-- JavaScript `v || d` on an optional integer field: `undefined` and `0`
are falsy and fall back to the default. -/
def jsOrInt (v : Option Int) (d : Int) : Int :=
  match v with
  | some x => if x = 0 then d else x
  | none => d

/-- A record of the IndexedDB `sessions` object store (keyPath `keyId`).
The store holds heterogeneous objects: session-key records written by
`storeSessionKey` and sequence-counter records written by
`getNextSequenceNumber` / `validateSequenceNumber`; a field absent from a
given record reads as `undefined`, modelled by `none`. -/
structure SessionRecord where
  recipientId : Option String := none
  key : Option Nat := none
  ephemeralPublicKey : Option Nat := none
  sequenceNumber : Option Int := none
  deriving Repr, DecidableEq

/-- The `sessions` object store: an association of `keyId` strings to
records.  `put` replaces any record with the same key (IndexedDB
`store.put` upsert semantics); `get` retrieves by key. -/
def Store := List (String × SessionRecord)

instance : DecidableEq Store := by unfold Store; infer_instance

/-- Empty store (fresh IndexedDB database). -/
def Store.empty : Store := []

/-- IndexedDB `store.get(k)`. -/
def storeGet (st : Store) (k : String) : Option SessionRecord :=
  (st.find? (fun e => e.1 = k)).map (·.2)

/-- IndexedDB `store.put(rec)` keyed by `keyId = k`: replaces the record
with that key, or inserts it. -/
def storePut (st : Store) (k : String) (r : SessionRecord) : Store :=
  match st with
  | [] => [(k, r)]
  | (k', r') :: rest =>
    if k' = k then (k, r) :: rest else (k', r') :: storePut rest k r

/-- Storage wrapper `storeSessionKey(keyId, recipientId, key,
ephemeralPublicKey)`: puts a session record (no `sequenceNumber` field)
into the `sessions` store under the caller-supplied `keyId`. -/
def storeSessionKey (st : Store) (keyId : String) (recipientId : String)
    (key : Nat) (ephemeralPublicKey : Nat) : Store :=
  storePut st keyId
    { recipientId := some recipientId
      key := some key
      ephemeralPublicKey := some ephemeralPublicKey }

/-- Storage wrapper `getSessionKey(keyId)`: returns the `key` field of the
record, or `null` when there is no record (or no field). -/
def getSessionKey (st : Store) (keyId : String) : Option Nat :=
  match storeGet st keyId with
  | some r => r.key
  | none => none

/-- Storage wrapper `getNextSequenceNumber(recipientId)`: reads record
`"seq_" ++ recipientId`, takes `sequenceNumber || 0`, stores the
incremented value (in a record carrying only `keyId` and
`sequenceNumber`) and returns it. -/
def getNextSequenceNumber (st : Store) (recipientId : String) : Int × Store :=
  let seqKey := "seq_" ++ recipientId
  let currentSeq := jsOrInt ((storeGet st seqKey).bind (·.sequenceNumber)) 0
  let nextSeq := currentSeq + 1
  (nextSeq, storePut st seqKey { sequenceNumber := some nextSeq })

/-- The value `request.result?.sequenceNumber || 0` read by
`validateSequenceNumber`: the last accepted sequence number for a sender,
`0` when no record is stored for `"recv_seq_" ++ senderId` or the record
carries no `sequenceNumber` field. -/
def lastAccepted (st : Store) (senderId : String) : Int :=
  jsOrInt ((storeGet st ("recv_seq_" ++ senderId)).bind (·.sequenceNumber)) 0

/-- Storage wrapper `validateSequenceNumber(senderId, receivedSeq)`: reads
record `"recv_seq_" ++ senderId`, takes `sequenceNumber || 0` as the last
accepted value; rejects (`false`, store unchanged) when `receivedSeq`
is not strictly greater, otherwise stores `receivedSeq` and accepts. -/
def validateSequenceNumber (st : Store) (senderId : String) (receivedSeq : Int) :
    Bool × Store :=
  let seqKey := "recv_seq_" ++ senderId
  let lastSeq := lastAccepted st senderId
  if receivedSeq ≤ lastSeq then
    (false, st)
  else
    (true, storePut st seqKey { sequenceNumber := some receivedSeq })

/-! ### Web Crypto primitives (platform, modelled)

The Web Crypto engine (`window.crypto.subtle`) is a browser primitive, not
repository code.  It is modelled symbolically, keeping exactly the
structure the repository relies on: the ECDH shared secret is a
commutative function of a private scalar and a public point (modelled in
the scalar group of order `p256Order`), HKDF and ECDSA are deterministic
functions of their inputs, and AES-GCM is an authenticated one-to-one
encryption that decrypts only under the same key and IV. -/

/-- Modelled from the spec: the order of the P-256 elliptic-curve group
used by all ECDH/ECDSA key material (`namedCurve: 'P-256'`). -/
def p256Order : Nat :=
  0xffffffff00000000ffffffffffffffffbce6faada7179e84f3b9cac2fc632551

/-- Modelled from the spec: the fixed P-256 generator (its x-coordinate is
used as the representative scalar). -/
def p256Gen : Nat :=
  0x6b17d1f2e12c4247f8bce6e563a440f277037d812deb33a0f4a13945d898c296

/-- Modelled from the spec: the public key corresponding to a P-256
private scalar.  The curve group is abelian; it is modelled by modular
multiplication, which preserves the commutativity of the scalar action
that ECDH relies on. -/
def p256PublicKey (priv : Nat) : Nat :=
  (priv * p256Gen) % p256Order

/-- Modelled from the spec: `subtle.deriveBits({name:'ECDH', public},
private, 256)` — the raw shared secret computed from a private scalar and
a public point. -/
def ecdhDeriveBits (priv pub : Nat) : Nat :=
  (priv * pub) % p256Order

/-- An injective-by-construction encoding of a string as a natural number,
standing for its UTF-8 byte serialization. -/
def encodeString (s : String) : Nat :=
  s.foldl (fun a c => a * 1114112 + c.toNat + 1) 0

/-- Modelled from the spec: HKDF-SHA256 key derivation
(`subtle.deriveKey({name:'HKDF', hash:'SHA-256', salt, info}, ...)`),
a deterministic function of the input key material, salt and info. -/
def hkdfSha256 (ikm : Nat) (salt : Nat) (info : String) : Nat :=
  Nat.pair ikm (Nat.pair salt (encodeString info))

/-- The all-zero 32-byte salt `new Uint8Array(32)` passed to HKDF by
`deriveSharedKey`. -/
def hkdfZeroSalt : Nat := 0

/-- `deriveSharedKey(privateKey, publicKey, context)` from `crypto.js`:
ECDH `deriveBits` on the two keys, then HKDF-SHA256 with the all-zero
salt and the UTF-8 encoded `context` as info, yielding the AES-256-GCM
session key. -/
def deriveSharedKey (privateKey : Nat) (publicKey : Nat) (context : String) : Nat :=
  hkdfSha256 (ecdhDeriveBits privateKey publicKey) hkdfZeroSalt context

/-- The signed exchange header built by `initiateKeyExchange` and parsed
by `completeKeyExchange` (`{ephemeralPublicKey, keyId, timestamp,
context}`); JSON serialization is treated symbolically, the signature
covering the header value. -/
structure Header where
  ephemeralPublicKey : Nat
  keyId : String
  timestamp : Int
  context : String
  deriving Repr, DecidableEq

/-- Modelled from the spec: an ECDSA P-256 signature over a header,
recording the signing private scalar and the exact signed bytes. -/
structure Sig where
  signerPriv : Nat
  signedHeader : Header
  deriving Repr, DecidableEq

/-- Modelled from the spec: `signData(privateKey, data)` — ECDSA-sign the
serialized header. -/
def signData (privateKey : Nat) (data : Header) : Sig :=
  ⟨privateKey, data⟩

/-- Modelled from the spec: `verifySignature(publicKey, data,
signature)` — an ECDSA signature verifies exactly when it was produced by
the private scalar matching `publicKey` over exactly the bytes `data`. -/
def verifySignature (publicKey : Nat) (data : Header) (sig : Sig) : Bool :=
  p256PublicKey sig.signerPriv == publicKey && sig.signedHeader == data

/-- Modelled from the spec: an AES-256-GCM ciphertext (the base64
ciphertext of the code).  It records the key and IV it was produced
under and the authenticated plaintext, which only matching key material
recovers. -/
structure GcmCiphertext (α : Type) where
  key : Nat
  iv : Nat
  data : α
  deriving Repr

/-- Modelled from the spec: `subtle.encrypt({name:'AES-GCM', iv}, key,
data)`. -/
def subtleEncrypt {α : Type} (key iv : Nat) (data : α) : GcmCiphertext α :=
  ⟨key, iv, data⟩

/-- Modelled from the spec: `subtle.decrypt({name:'AES-GCM', iv}, key,
ciphertext)` — returns the plaintext when key and IV match, otherwise the
128-bit tag check fails and the call throws. -/
def subtleDecrypt {α : Type} (key iv : Nat) (c : GcmCiphertext α) : Option α :=
  if c.key = key ∧ c.iv = iv then some c.data else none

/-! ### Message cipher (`encryptMessage` / `decryptMessage`) -/

/-- The decoded plaintext string of a message together with its JSON parse
outcome (the platform `JSON.parse` is modelled symbolically): `fields =
none` when parsing throws or yields a non-object, otherwise the optional
`text` and `timestamp` members of the parsed object. -/
structure MsgPayload where
  raw : String
  fields : Option (Option String × Option Int)
  deriving Repr

/-- The string `JSON.stringify({text, timestamp})` built by
`encryptMessage`. -/
def stringifyWrapped (text : String) (timestamp : Int) : String :=
  "\x7b\"text\":\"" ++ text ++ "\",\"timestamp\":" ++ toString timestamp ++ "\x7d"

/-- Errors thrown by `decryptMessage` / `decryptFile`: an AES-GCM
authentication failure, or one of the replay-protection errors (each
carrying "possible replay attack" in its message). -/
inductive CryptoError where
  | authenticationFailed
  | staleMessage
  | futureTimestamp
  | staleFile
  | futureFile
  deriving Repr, DecidableEq

/-- The `{ciphertext, iv}` pair returned by `encryptMessage` and
`encryptFile`. -/
structure EncryptedMessage (α : Type) where
  ciphertext : GcmCiphertext α
  iv : Nat
  deriving Repr

/-- `encryptMessage(key, plaintext)` from `crypto.js`: wraps the plaintext
as `JSON.stringify({text: plaintext, timestamp: Date.now()})`, then
AES-GCM encrypts under a fresh random IV.  `Date.now()` and the random IV
are explicit parameters `now` and `iv`. -/
def encryptMessage (now : Int) (iv : Nat) (key : Nat) (plaintext : String) :
    EncryptedMessage MsgPayload :=
  let payload : MsgPayload :=
    { raw := stringifyWrapped plaintext now
      fields := some (some plaintext, some now) }
  { ciphertext := subtleEncrypt key iv payload, iv := iv }

/-- `decryptMessage(key, ciphertextBase64, ivBase64, options)` from
`crypto.js`: AES-GCM decrypt; if the payload parses as an object with
`text` and `timestamp` members, enforce the staleness window
(`options.maxAge || 3600000` and 60 s clock skew) and return `text`;
otherwise fall back to returning the decoded string unchanged.  Only the
replay-attack errors escape the parsing `try`. -/
def decryptMessage (now : Int) (key : Nat) (ciphertext : GcmCiphertext MsgPayload)
    (iv : Nat) (maxAgeOpt : Option Int) : Except CryptoError String :=
  match subtleDecrypt key iv ciphertext with
  | none => .error .authenticationFailed
  | some payload =>
    match payload.fields with
    | some (some text, some timestamp) =>
      let maxAge := jsOrInt maxAgeOpt 3600000
      let age := now - timestamp
      if age > maxAge then .error .staleMessage
      else if age < -60000 then .error .futureTimestamp
      else .ok text
    | _ => .ok payload.raw

/-! ### File cipher (`encryptFile` / `decryptFile`) -/

/-- The 8-byte big-endian encoding `setBigUint64(0, BigInt(timestamp),
false)` of a millisecond timestamp. -/
def beBytes8 (t : Nat) : List Nat :=
  [t / 2 ^ 56 % 256, t / 2 ^ 48 % 256, t / 2 ^ 40 % 256, t / 2 ^ 32 % 256,
   t / 2 ^ 24 % 256, t / 2 ^ 16 % 256, t / 2 ^ 8 % 256, t % 256]

/-- The value `dataView.getBigUint64(0, false)`: the first 8 bytes of a
buffer read as a big-endian 64-bit integer. -/
def beRead8 (bs : List Nat) : Nat :=
  (bs.take 8).foldl (fun a b => a * 256 + b) 0

/-- `encryptFile(key, fileBuffer)` from `crypto.js`: prepends the 8-byte
big-endian `Date.now()` timestamp to the file bytes and AES-GCM encrypts
the combined buffer under a fresh random IV. -/
def encryptFile (now : Int) (iv : Nat) (key : Nat) (fileBuffer : List Nat) :
    EncryptedMessage (List Nat) :=
  { ciphertext := subtleEncrypt key iv (beBytes8 (now.toNat % 2 ^ 64) ++ fileBuffer)
    iv := iv }

/-- `decryptFile(key, ciphertextBase64, ivBase64, options)` from
`crypto.js`: AES-GCM decrypt; when the plaintext has at least 8 bytes,
read its first 8 bytes as a big-endian timestamp, enforce the staleness
window and return the plaintext with those 8 bytes removed; only a
plaintext shorter than 8 bytes is returned whole (legacy fallback). -/
def decryptFile (now : Int) (key : Nat) (ciphertext : GcmCiphertext (List Nat))
    (iv : Nat) (maxAgeOpt : Option Int) : Except CryptoError (List Nat) :=
  match subtleDecrypt key iv ciphertext with
  | none => .error .authenticationFailed
  | some plaintext =>
    if 8 ≤ plaintext.length then
      let timestamp : Int := (beRead8 plaintext : Nat)
      let maxAge := jsOrInt maxAgeOpt 3600000
      let age := now - timestamp
      if age > maxAge then .error .staleFile
      else if age < -60000 then .error .futureFile
      else .ok (plaintext.drop 8)
    else .ok plaintext

/-! ### Key exchange (`keyExchange.js`) and inbound handling (`Chat.js`) -/

/-- The parsed `initiatorPublicKeyData` JSON: a bundle that may carry a
`signing` and a `dh` public key (missing members read as `undefined`). -/
structure PublicKeyBundle where
  signing : Option Nat
  dh : Option Nat
  deriving Repr, DecidableEq

/-- Errors thrown by `completeKeyExchange`, in the order the code can
raise them: missing `signing`/`dh` members in the key bundle, signature
verification failure (`'Invalid signature - potential MITM attack!'`),
and an invalid or missing responder DH private key. -/
inductive KxError where
  | invalidKeyFormat
  | invalidSignature
  | invalidDHKey
  deriving Repr, DecidableEq

/-- `completeKeyExchange(responderUserId, initiatorUserId,
initiatorPublicKeyData, ephemeralPublicKeyJwk, headerData, signature)`
from `keyExchange.js`: validates the key bundle, verifies the signature
over the header bytes with the initiator's signing public key, derives
the session key from the responder's DH private key and the received
ephemeral public key with the context taken from the header, and persists
the session under the header's `keyId`.  The IndexedDB-held state
(session store, responder DH private key) is passed and returned
explicitly; on any thrown error the store is returned unchanged. -/
def completeKeyExchange (st : Store) (responderDHKey : Option Nat)
    (responderUserId initiatorUserId : String)
    (initiatorKeys : PublicKeyBundle) (ephemeralPublicKey : Nat)
    (headerData : Header) (sig : Sig) :
    Except KxError (String × Nat) × Store :=
  match initiatorKeys.signing, initiatorKeys.dh with
  | some signingPub, some _ =>
    if verifySignature signingPub headerData sig then
      match responderDHKey with
      | some dhPriv =>
        let keyId := headerData.keyId
        let context := headerData.context
        let sessionKey := deriveSharedKey dhPriv ephemeralPublicKey context
        let st1 := storeSessionKey st keyId initiatorUserId sessionKey ephemeralPublicKey
        (.ok (keyId, sessionKey), st1)
      | none => (.error .invalidDHKey, st)
    else (.error .invalidSignature, st)
  | _, _ => (.error .invalidKeyFormat, st)

/-- An inbound socket envelope as received by `handleIncomingMessage` in
`Chat.js` (the server stores `sequenceNumber: sequenceNumber || 0`, so an
envelope sent without one carries `0`). -/
structure Envelope where
  senderId : String
  keyId : String
  sequenceNumber : Option Int
  ciphertext : GcmCiphertext MsgPayload
  iv : Nat
  ephemeralPublicKey : Option Nat
  headerData : Option Header
  sig : Option Sig
  deriving Repr

/-- Outcome of `handleIncomingMessage`: early return after a replay
detection, message appended as decrypted (`decrypted: true`), or message
appended as `'[Decryption failed]'` (any error reaching the outer
`catch`). -/
inductive InboundResult where
  | rejectedReplay
  | accepted (plaintext : String)
  | failed
  deriving Repr, DecidableEq

/-- The body of `handleIncomingMessage` after the sequence-number check:
look up the session key by `keyId`; if absent and the envelope carries
ephemeral material, complete the key exchange (persisting the derived
session); then decrypt.  A missing key, failed exchange or failed
decryption reaches the outer `catch` and the message is appended as
failed. -/
def processEnvelope (st : Store) (now : Int) (currentUserId : String)
    (responderDHKey : Option Nat) (senderKeys : PublicKeyBundle)
    (data : Envelope) : InboundResult × Store :=
  match getSessionKey st data.keyId with
  | some key =>
    match decryptMessage now key data.ciphertext data.iv none with
    | .ok text => (.accepted text, st)
    | .error _ => (.failed, st)
  | none =>
    match data.ephemeralPublicKey with
    | some eph =>
      match data.headerData, data.sig with
      | some hd, some s =>
        match completeKeyExchange st responderDHKey currentUserId data.senderId
            senderKeys eph hd s with
        | (.ok (_, sessionKey), st1) =>
          match decryptMessage now sessionKey data.ciphertext data.iv none with
          | .ok text => (.accepted text, st1)
          | .error _ => (.failed, st1)
        | (.error _, st1) => (.failed, st1)
      | _, _ => (.failed, st)
    | none => (.failed, st)

/-- `handleIncomingMessage(data)` from `Chat.js`: when
`data.sequenceNumber` is truthy (present and nonzero), run
`validateSequenceNumber` and reject the envelope on failure; then resolve
the session key (completing the key exchange if needed) and decrypt. -/
def handleIncomingMessage (st : Store) (now : Int) (currentUserId : String)
    (responderDHKey : Option Nat) (senderKeys : PublicKeyBundle)
    (data : Envelope) : InboundResult × Store :=
  match data.sequenceNumber with
  | some n =>
    if n = 0 then
      processEnvelope st now currentUserId responderDHKey senderKeys data
    else
      match validateSequenceNumber st data.senderId n with
      | (true, st1) => processEnvelope st1 now currentUserId responderDHKey senderKeys data
      | (false, st1) => (.rejectedReplay, st1)
  | none => processEnvelope st now currentUserId responderDHKey senderKeys data

/-! ### Store lemmas -/

theorem storeGet_storePut_self (st : Store) (k : String) (r : SessionRecord) :
    storeGet (storePut st k r) k = some r := by
  induction st with
  | nil => simp [storePut, storeGet, List.find?]
  | cons e rest ih =>
    obtain ⟨k', r'⟩ := e
    by_cases h : k' = k
    · subst h
      simp [storePut, storeGet, List.find?]
    · simpa [storePut, storeGet, List.find?, h] using ih

theorem lastAccepted_storePut (st : Store) (id : String) (r : SessionRecord) :
    lastAccepted (storePut st ("recv_seq_" ++ id) r) id = jsOrInt r.sequenceNumber 0 := by
  simp [lastAccepted, storeGet_storePut_self]

theorem subtleDecrypt_self {α : Type} (key iv : Nat) (d : α) :
    subtleDecrypt key iv ⟨key, iv, d⟩ = some d := by
  simp [subtleDecrypt]

/-! ### Claims -/

/-- C3.  Replay Guard acceptance semantics of `validateSequenceNumber`:
a received sequence number not exceeding the stored last-accepted value
(`0` when no state is stored for the sender) is rejected with the store
unchanged; a strictly greater one is accepted and becomes the new stored
value.  In particular, from a fresh store, `5` is accepted, then `5` and
`3` are rejected, then `6` is accepted. -/
theorem validateSequenceNumber_spec (st : Store) (id : String) (n : Int) :
    (n ≤ lastAccepted st id → validateSequenceNumber st id n = (false, st)) ∧
    (lastAccepted st id < n →
      (validateSequenceNumber st id n).1 = true ∧
      lastAccepted (validateSequenceNumber st id n).2 id = n) ∧
    ((validateSequenceNumber Store.empty "alice" 5).1 = true ∧
     (validateSequenceNumber (validateSequenceNumber Store.empty "alice" 5).2 "alice" 5).1 = false ∧
     (validateSequenceNumber (validateSequenceNumber Store.empty "alice" 5).2 "alice" 3).1 = false ∧
     (validateSequenceNumber (validateSequenceNumber Store.empty "alice" 5).2 "alice" 6).1 = true) := by
  refine ⟨?_, ?_, by decide⟩
  · intro h
    simp [validateSequenceNumber, h]
  · intro h
    have h' : ¬ n ≤ lastAccepted st id := not_le.mpr h
    constructor
    · simp [validateSequenceNumber, h']
    · simp [validateSequenceNumber, h', lastAccepted_storePut, jsOrInt]
      intro hn
      omega

/-- C3 witness: on a fresh store, sequence number 1 from "bob" is
accepted and recorded. -/
theorem validateSequenceNumber_spec_w :
    (validateSequenceNumber Store.empty "bob" 1).1 = true ∧
    lastAccepted (validateSequenceNumber Store.empty "bob" 1).2 "bob" = 1 :=
  (validateSequenceNumber_spec Store.empty "bob" 1).2.1 (by decide)

/-- C8.  Send-counter correctness of `getNextSequenceNumber`: when no
counter record is stored for the remote party the call returns `1`, and
an immediately following call on the updated store returns exactly one
more, so successive calls return `1, 2, 3, ...`. -/
theorem getNextSequenceNumber_spec (st : Store) (rid : String) :
    (storeGet st ("seq_" ++ rid) = none → (getNextSequenceNumber st rid).1 = 1) ∧
    (getNextSequenceNumber (getNextSequenceNumber st rid).2 rid).1 =
      (getNextSequenceNumber st rid).1 + 1 := by
  constructor
  · intro h
    simp [getNextSequenceNumber, h, jsOrInt]
  · have hstore : (storeGet (getNextSequenceNumber st rid).2 ("seq_" ++ rid)).bind
        (·.sequenceNumber) = some ((getNextSequenceNumber st rid).1) := by
      simp [getNextSequenceNumber, storeGet_storePut_self]
    have hstep : (getNextSequenceNumber (getNextSequenceNumber st rid).2 rid).1
        = jsOrInt ((storeGet (getNextSequenceNumber st rid).2 ("seq_" ++ rid)).bind
            (·.sequenceNumber)) 0 + 1 := rfl
    rw [hstep, hstore]
    generalize (getNextSequenceNumber st rid).1 = m
    simp only [jsOrInt]
    split <;> omega

/-- C8 witness: on a fresh store the first two calls for "bob" return 1
and 2. -/
theorem getNextSequenceNumber_spec_w :
    (storeGet Store.empty ("seq_" ++ "bob") = none ∧
      (getNextSequenceNumber Store.empty "bob").1 = 1) ∧
    (getNextSequenceNumber (getNextSequenceNumber Store.empty "bob").2 "bob").1 =
      (getNextSequenceNumber Store.empty "bob").1 + 1 :=
  ⟨⟨rfl, (getNextSequenceNumber_spec Store.empty "bob").1 rfl⟩,
   (getNextSequenceNumber_spec Store.empty "bob").2⟩

/-- C9.  Session records and sequence counters share the single keyed
`sessions` store: `storeSessionKey` under `"recv_seq_" ++ s` replaces the
replay-guard record of sender `s` with a session record carrying no
`sequenceNumber` field, after which the last-accepted value reads as `0`
and any sequence number `≥ 1` is accepted again — including through
`completeKeyExchange`, whose `keyId` comes from the caller-supplied
header. -/
theorem storeSessionKey_resets_replay_guard (st : Store) (s rid : String)
    (k eph : Nat) (n : Int) (hn : 1 ≤ n) :
    (storeGet (storeSessionKey st ("recv_seq_" ++ s) rid k eph) ("recv_seq_" ++ s)
        = some { recipientId := some rid, key := some k, ephemeralPublicKey := some eph,
                 sequenceNumber := none }) ∧
    lastAccepted (storeSessionKey st ("recv_seq_" ++ s) rid k eph) s = 0 ∧
    (validateSequenceNumber (storeSessionKey st ("recv_seq_" ++ s) rid k eph) s n).1 = true ∧
    (∀ (cuid : String) (dhPriv sp dq : Nat) (hd : Header) (sg : Sig),
      hd.keyId = "recv_seq_" ++ s →
      verifySignature sp hd sg = true →
      (validateSequenceNumber
        (completeKeyExchange st (some dhPriv) cuid s ⟨some sp, some dq⟩ eph hd sg).2
        s n).1 = true) := by
  have hget : storeGet (storeSessionKey st ("recv_seq_" ++ s) rid k eph) ("recv_seq_" ++ s)
      = some { recipientId := some rid, key := some k, ephemeralPublicKey := some eph,
               sequenceNumber := none } :=
    storeGet_storePut_self st _ _
  have hlast : lastAccepted (storeSessionKey st ("recv_seq_" ++ s) rid k eph) s = 0 := by
    simp [storeSessionKey, lastAccepted_storePut, jsOrInt]
  have hvalid : ∀ (rid' : String) (k' : Nat),
      (validateSequenceNumber (storeSessionKey st ("recv_seq_" ++ s) rid' k' eph) s n).1
        = true := by
    intro rid' k'
    have hlast' : lastAccepted (storeSessionKey st ("recv_seq_" ++ s) rid' k' eph) s = 0 := by
      simp [storeSessionKey, lastAccepted_storePut, jsOrInt]
    simp only [validateSequenceNumber, hlast']
    rw [if_neg (by omega)]
  refine ⟨hget, hlast, hvalid rid k, ?_⟩
  intro cuid dhPriv sp dq hd sg hkid hver
  simp only [completeKeyExchange, hver, if_true]
  rw [hkid]
  exact hvalid _ _

/-- C9 witness: after sequence number 5 from "eve" has been accepted,
storing a session record under keyId `"recv_seq_eve"` lets the same
sequence number 5 be accepted again. -/
theorem storeSessionKey_resets_replay_guard_w :
    (1 : Int) ≤ 5 ∧
    (validateSequenceNumber
      (storeSessionKey (validateSequenceNumber Store.empty "eve" 5).2
        ("recv_seq_" ++ "eve") "eve" 9 3) "eve" 5).1 = true :=
  ⟨by decide,
   (storeSessionKey_resets_replay_guard (validateSequenceNumber Store.empty "eve" 5).2
      "eve" "eve" 9 3 5 (by decide)).2.2.1⟩

/-- The ECDH shared secret is symmetric in the two key pairs: scalar
multiplication in the (abelian) curve group commutes. -/
theorem ecdhDeriveBits_symm (a b : Nat) :
    ecdhDeriveBits a (p256PublicKey b) = ecdhDeriveBits b (p256PublicKey a) := by
  unfold ecdhDeriveBits p256PublicKey
  conv_lhs => rw [Nat.mul_mod, Nat.mod_mod_of_dvd _ dvd_rfl, ← Nat.mul_mod]
  conv_rhs => rw [Nat.mul_mod, Nat.mod_mod_of_dvd _ dvd_rfl, ← Nat.mul_mod]
  rw [mul_left_comm]

/-- C1.  Key agreement symmetry: for ECDH key pairs `(aPriv, aPub)` and
`(bPriv, bPub)` and one identical context string, `deriveSharedKey`
produces the same symmetric key on both sides. -/
theorem deriveSharedKey_symmetric (aPriv bPriv aPub bPub : Nat) (ctx : String)
    (ha : aPub = p256PublicKey aPriv) (hb : bPub = p256PublicKey bPriv) :
    deriveSharedKey aPriv bPub ctx = deriveSharedKey bPriv aPub ctx := by
  subst ha hb
  unfold deriveSharedKey
  rw [ecdhDeriveBits_symm]

/-- C1 witness: concrete key pairs with private scalars 5 and 7 derive
the same key for the context string `"alice||bob||1"`. -/
theorem deriveSharedKey_symmetric_w :
    deriveSharedKey 5 (p256PublicKey 7) "alice||bob||1"
      = deriveSharedKey 7 (p256PublicKey 5) "alice||bob||1" :=
  deriveSharedKey_symmetric 5 7 (p256PublicKey 5) (p256PublicKey 7) "alice||bob||1" rfl rfl

/-- C2.  Message round-trip: decrypting the output of `encryptMessage`
with the same session key, while the embedded timestamp is within the
staleness window (not older than the default `maxAge` of 3600000 ms and
not more than 60 s in the future), returns exactly the plaintext. -/
theorem encryptMessage_decryptMessage_roundtrip (key iv : Nat) (plaintext : String)
    (tEnc tDec : Int) (hOld : tDec - tEnc ≤ 3600000) (hFut : tEnc - tDec ≤ 60000) :
    decryptMessage tDec key (encryptMessage tEnc iv key plaintext).ciphertext
      (encryptMessage tEnc iv key plaintext).iv none = .ok plaintext := by
  simp only [encryptMessage, decryptMessage, subtleEncrypt, subtleDecrypt_self, jsOrInt]
  rw [if_neg (by omega), if_neg (by omega)]

/-- C2 witness: a concrete message encrypted at time 0 decrypts to itself
1000 ms later. -/
theorem encryptMessage_decryptMessage_roundtrip_w :
    decryptMessage 1000 42 (encryptMessage 0 7 42 "hello").ciphertext
      (encryptMessage 0 7 42 "hello").iv none = .ok "hello" :=
  encryptMessage_decryptMessage_roundtrip 42 7 "hello" 0 1000 (by decide) (by decide)

/-- C6.  Timestamp freshness checks in `decryptMessage`: for a
successfully authenticated payload carrying the wrapped
`{text, timestamp}` structure under the default `maxAge` of 3600000 ms,
a timestamp older than `maxAge` raises the stale-message error, one more
than 60000 ms in the future raises the future-timestamp error, and one
within the window returns the wrapped text. -/
theorem decryptMessage_timestamp_checks (key iv : Nat) (payload : MsgPayload)
    (now ts : Int) (text : String) (hp : payload.fields = some (some text, some ts)) :
    (now - ts > 3600000 →
      decryptMessage now key ⟨key, iv, payload⟩ iv none = .error .staleMessage) ∧
    (ts - now > 60000 →
      decryptMessage now key ⟨key, iv, payload⟩ iv none = .error .futureTimestamp) ∧
    (now - ts ≤ 3600000 → ts - now ≤ 60000 →
      decryptMessage now key ⟨key, iv, payload⟩ iv none = .ok text) := by
  simp only [decryptMessage, subtleDecrypt_self, jsOrInt, hp]
  refine ⟨fun h => ?_, fun h => ?_, fun h1 h2 => ?_⟩
  · rw [if_pos (by omega)]
  · rw [if_neg (by omega), if_pos (by omega)]
  · rw [if_neg (by omega), if_neg (by omega)]

/-- C6 witness: a message whose embedded timestamp is 7200000 ms in the
past fails decryption with the stale-message error under the default
`maxAge`. -/
theorem decryptMessage_timestamp_checks_w :
    decryptMessage 7200000 1 ⟨1, 2, ⟨stringifyWrapped "m" 0, some (some "m", some 0)⟩⟩
      2 none = .error .staleMessage :=
  (decryptMessage_timestamp_checks 1 2 ⟨stringifyWrapped "m" 0, some (some "m", some 0)⟩
      7200000 0 "m" rfl).1 (by decide)

/-- C7.  Backward-compatibility fallback: a successfully authenticated
payload whose decrypted string does not parse as the wrapped
`{text, timestamp}` structure (JSON parse failure, or a parsed object
missing the `text` or `timestamp` member) is returned as the raw decoded
string unchanged, not as an error. -/
theorem decryptMessage_legacy_fallback (key iv : Nat) (payload : MsgPayload)
    (now : Int) (h : ∀ text ts, payload.fields ≠ some (some text, some ts)) :
    decryptMessage now key ⟨key, iv, payload⟩ iv none = .ok payload.raw := by
  simp only [decryptMessage, subtleDecrypt_self]

/-- C7 witness: a legacy payload string that fails to parse is returned
unchanged. -/
theorem decryptMessage_legacy_fallback_w :
    decryptMessage 0 1 ⟨1, 2, ⟨"legacy body", none⟩⟩ 2 none = .ok "legacy body" :=
  decryptMessage_legacy_fallback 1 2 ⟨"legacy body", none⟩ 0 (by simp)

/-- C10.  `decryptFile` interprets the first 8 bytes of every
authenticated plaintext of length ≥ 8 as a big-endian 64-bit millisecond
timestamp: it throws the stale or future replay error when that value is
outside the freshness window, and otherwise returns the plaintext with
its first 8 bytes removed; only a plaintext shorter than 8 bytes is
returned unchanged. -/
theorem decryptFile_timestamp_layout (key iv : Nat) (bytes : List Nat) (now : Int) :
    (8 ≤ bytes.length →
      (now - (beRead8 bytes : Int) > 3600000 →
        decryptFile now key ⟨key, iv, bytes⟩ iv none = .error .staleFile) ∧
      ((beRead8 bytes : Int) - now > 60000 →
        decryptFile now key ⟨key, iv, bytes⟩ iv none = .error .futureFile) ∧
      (now - (beRead8 bytes : Int) ≤ 3600000 → (beRead8 bytes : Int) - now ≤ 60000 →
        decryptFile now key ⟨key, iv, bytes⟩ iv none = .ok (bytes.drop 8))) ∧
    (bytes.length < 8 →
      decryptFile now key ⟨key, iv, bytes⟩ iv none = .ok bytes) := by
  simp only [decryptFile, subtleDecrypt_self, jsOrInt]
  constructor
  · intro h8
    rw [if_pos h8]
    refine ⟨fun h => ?_, fun h => ?_, fun h1 h2 => ?_⟩
    · rw [if_pos (by omega)]
    · rw [if_neg (by omega), if_pos (by omega)]
    · rw [if_neg (by omega), if_neg (by omega)]
  · intro h8
    rw [if_neg (by omega)]

/-- C10 witness: a 9-byte plaintext whose leading 8 bytes decode to the
timestamp 1 is accepted at time 2 and returned with those 8 bytes
stripped, and an 80-byte-value-free short plaintext is returned whole. -/
theorem decryptFile_timestamp_layout_w :
    decryptFile 2 1 ⟨1, 3, [0, 0, 0, 0, 0, 0, 0, 1, 42]⟩ 3 none = .ok [42] :=
  ((decryptFile_timestamp_layout 1 3 [0, 0, 0, 0, 0, 0, 0, 1, 42] 2).1
    (by decide)).2.2 (by decide) (by decide)

/-- C5.  `completeKeyExchange` verifies the signature over the header
bytes against the initiator's signing public key before deriving
anything: when verification fails it raises the invalid-signature error,
derives no session key, and leaves the session store unchanged. -/
theorem completeKeyExchange_invalid_signature (st : Store) (rdh : Option Nat)
    (ruid iuid : String) (keys : PublicKeyBundle) (eph : Nat) (hd : Header)
    (sg : Sig) (sp dq : Nat) (hsig : keys.signing = some sp) (hdh : keys.dh = some dq)
    (hver : verifySignature sp hd sg = false) :
    completeKeyExchange st rdh ruid iuid keys eph hd sg
      = (.error .invalidSignature, st) := by
  simp [completeKeyExchange, hsig, hdh, hver]

/-- C5 witness: a header signed by private scalar 12 fails verification
against the signing public key of private scalar 11 and leaves the store
unchanged. -/
theorem completeKeyExchange_invalid_signature_w :
    completeKeyExchange Store.empty (some 5) "bob" "alice"
      ⟨some (p256PublicKey 11), some 99⟩ 7 ⟨7, "kid", 0, "alice||bob||0"⟩
      (signData 12 ⟨7, "kid", 0, "alice||bob||0"⟩)
      = (.error .invalidSignature, Store.empty) :=
  completeKeyExchange_invalid_signature Store.empty (some 5) "bob" "alice"
    ⟨some (p256PublicKey 11), some 99⟩ 7 ⟨7, "kid", 0, "alice||bob||0"⟩
    (signData 12 ⟨7, "kid", 0, "alice||bob||0"⟩) (p256PublicKey 11) 99
    rfl rfl (by decide)

theorem subtleDecrypt_eq_some {α : Type} {key iv : Nat} {c : GcmCiphertext α}
    {d : α} (h : subtleDecrypt key iv c = some d) : d = c.data := by
  unfold subtleDecrypt at h
  split at h
  · injection h with h
    exact h.symm
  · cases h

theorem decryptMessage_ok_fresh {now : Int} {k iv : Nat} {c : GcmCiphertext MsgPayload}
    {text t : String} {ts : Int}
    (h : decryptMessage now k c iv none = .ok text)
    (hf : c.data.fields = some (some t, some ts)) :
    text = t ∧ now - ts ≤ 3600000 ∧ ts - now ≤ 60000 := by
  unfold decryptMessage at h
  rcases hsd : subtleDecrypt k iv c with _ | payload
  · simp only [hsd] at h
    cases h
  · have hp := subtleDecrypt_eq_some hsd
    subst hp
    simp only [hsd, hf, jsOrInt] at h
    split at h
    · cases h
    · split at h
      · cases h
      · injection h with h
        refine ⟨h.symm, by omega, by omega⟩

theorem processEnvelope_no_accept {st : Store} {now : Int} {cuid : String}
    {rdh : Option Nat} {skeys : PublicKeyBundle} {data : Envelope}
    (hall : ∀ (k : Nat) (text : String),
      decryptMessage now k data.ciphertext data.iv none ≠ .ok text) :
    ∀ text, (processEnvelope st now cuid rdh skeys data).1 ≠ .accepted text := by
  intro text h
  unfold processEnvelope at h
  repeat' split at h
  all_goals cases h
  all_goals exact hall _ _ (by assumption)

/-- C4 (amended).  A message failing a performed check is not accepted:
when the envelope carries a nonzero sequence number and
`validateSequenceNumber` rejects it, the handler returns the replay
rejection with the store unchanged; and when the ciphertext's wrapped
timestamp lies outside the freshness window, no decryption key can make
the handler accept it.  (The sequence check is skipped entirely when
`sequenceNumber` is absent or `0`, and the freshness check is skipped for
legacy payloads — such envelopes can still be accepted.) -/
theorem handleIncomingMessage_checks (st : Store) (now : Int) (cuid : String)
    (rdh : Option Nat) (skeys : PublicKeyBundle) (data : Envelope) :
    (∀ n : Int, data.sequenceNumber = some n → n ≠ 0 →
      (validateSequenceNumber st data.senderId n).1 = false →
      handleIncomingMessage st now cuid rdh skeys data = (.rejectedReplay, st)) ∧
    (∀ (t : String) (ts : Int),
      data.ciphertext.data.fields = some (some t, some ts) →
      (3600000 < now - ts ∨ 60000 < ts - now) →
      ∀ text, (handleIncomingMessage st now cuid rdh skeys data).1 ≠ .accepted text) := by
  constructor
  · intro n hn hnz hv
    have hfalse : validateSequenceNumber st data.senderId n = (false, st) := by
      by_cases hc : n ≤ lastAccepted st data.senderId
      · simp [validateSequenceNumber, hc]
      · exfalso
        simp [validateSequenceNumber, hc] at hv
    simp only [handleIncomingMessage, hn]
    rw [if_neg hnz]
    simp only [hfalse]
  · intro t ts hf hbad text h
    have hall : ∀ (k : Nat) (text' : String),
        decryptMessage now k data.ciphertext data.iv none ≠ .ok text' := by
      intro k text' hok
      obtain ⟨-, h1, h2⟩ := decryptMessage_ok_fresh hok hf
      omega
    rcases hsq : data.sequenceNumber with _ | n
    · simp only [handleIncomingMessage, hsq] at h
      exact processEnvelope_no_accept hall text h
    · simp only [handleIncomingMessage, hsq] at h
      by_cases hz : n = 0
      · rw [if_pos hz] at h
        exact processEnvelope_no_accept hall text h
      · rw [if_neg hz] at h
        rcases hvr : validateSequenceNumber st data.senderId n with ⟨b, st1⟩
        simp only [hvr] at h
        cases b
        · cases h
        · exact processEnvelope_no_accept hall text h

/-- C4 witness: an envelope from "eve" replaying sequence number 5 (after
5 was already accepted) is rejected as a replay with the store
unchanged. -/
theorem handleIncomingMessage_checks_w :
    handleIncomingMessage (validateSequenceNumber Store.empty "eve" 5).2 0 "me"
      none ⟨none, none⟩
      { senderId := "eve", keyId := "K", sequenceNumber := some 5,
        ciphertext := ⟨1, 2, ⟨"x", none⟩⟩, iv := 2,
        ephemeralPublicKey := none, headerData := none, sig := none }
      = (.rejectedReplay, (validateSequenceNumber Store.empty "eve" 5).2) :=
  (handleIncomingMessage_checks (validateSequenceNumber Store.empty "eve" 5).2 0 "me"
      none ⟨none, none⟩ _).1 5 rfl (by decide) (by decide)

/-- C4 counterexample: an envelope whose `sequenceNumber` is `0` (the
server's default for envelopes sent without one) skips the replay check
entirely — `validateSequenceNumber` would reject it — yet the message is
decrypted and accepted, contradicting the claim that an envelope whose
sequence check is not performed is not accepted. -/
theorem handleIncomingMessage_skips_replay_check_cex :
    (handleIncomingMessage (storeSessionKey Store.empty "K" "alice" 99 5) 1000 "me"
      none ⟨none, none⟩
      { senderId := "alice", keyId := "K", sequenceNumber := some 0,
        ciphertext := ⟨99, 7, ⟨stringifyWrapped "hi" 1000, some (some "hi", some 1000)⟩⟩,
        iv := 7, ephemeralPublicKey := none, headerData := none, sig := none }).1
      = .accepted "hi" ∧
    (validateSequenceNumber (storeSessionKey Store.empty "K" "alice" 99 5)
      "alice" 0).1 = false := by
  decide

end Encircle
